import Mathlib

/-
Verification of the CortexLuma backend (Express + Gemini relay).

The repository holds several revisions of the same small backend:
  * `FailFast`  : the revision of `unnamed/part_000` (first half) whose
    `/api/stream-chat` validates history and prompt before `writeHead`, and whose
    `/api/generate-image` enforces a 5-character minimum prompt.
  * `Retry`     : the revision of `unnamed/part_000` (second half) whose
    `/api/stream-chat` retries the upstream call up to `MAX_RETRIES = 3` times
    and parses a `base64Image` data URL.
  * `V1`        : the first revision in `server.js`, which calls `writeHead`
    before checking the history and answers `/api/generate-image` with
    a `\x7bimage: \x7bdata, mimeType\x7d\x7d` body.
  * `V2`        : the second revision in `server.js`, which merges `imageParts`
    into the last user turn of the history.

Handlers are modelled as pure functions from the (already JSON-parsed) request
body and an explicit upstream behaviour to the ordered list of observable
response events (status JSON, response headers, upstream call, stream writes,
stream end).  JavaScript dynamic typing is modelled with `JsField`
(missing / wrong-type / value) and `Option` fields; JavaScript string
truthiness is `truthy`.
-/

namespace CortexLuma

/-- An inline media part: `\x7binlineData: \x7bmimeType, data\x7d\x7d` in the Gemini wire format. -/
structure MediaPartData where
  mimeType : String
  data : String
deriving DecidableEq

/-- One element of a turn of a conversation: text or inline media. -/
inductive Part where
  | text (t : String)
  | inlineData (d : MediaPartData)
deriving DecidableEq

/-- One conversation turn: `\x7brole, parts\x7d`. -/
structure Turn where
  role : String
  parts : List Part
deriving DecidableEq

/-- One grounding attribution as seen by the chunk loops: the `uri` and `title`
fields of `attr.web`, each possibly `undefined`. -/
structure Attribution where
  uri : Option String
  title : Option String
deriving DecidableEq

/-- One chunk of the upstream stream: optional `text` and the optional
`groundingAttributions` array reached through the grounding metadata. -/
structure Chunk where
  text : Option String
  groundingAttributions : Option (List Attribution)
deriving DecidableEq

/-- An upstream stream that yields `chunks` in order and then either ends
normally (`failure = none`) or raises an error mid-stream. -/
structure UpstreamStream where
  chunks : List Chunk
  failure : Option String
deriving DecidableEq

/-- A dynamically-typed request-body field: absent, present with the wrong
type, or present with a value of the expected type. -/
inductive JsField (α : Type) where
  | missing
  | invalid
  | val (a : α)
deriving DecidableEq

/-- Whether a `JsField` holds a value of the expected type. -/
def JsField.isVal {α : Type} : JsField α → Bool
  | JsField.val _ => true
  | _ => false

/-- The `image` object of the fail-fast revision: `data` and `mimeType`
fields that may each be absent. -/
structure ImageField where
  data : Option String
  mimeType : Option String
deriving DecidableEq

/-- JavaScript truthiness of an optional string: present and non-empty. -/
def truthy : Option String → Bool
  | some s => s ≠ ""
  | none => false

/-- Observable response events emitted by a handler, in order. -/
inductive Event where
  | jsonStatus (status : Nat) (error : String)
  | writeHead (status : Nat)
  | upstreamCall (contents : List Turn)
  | write (s : String)
  | endStream
deriving DecidableEq

/-- The payloads of the `write` events, in order: the byte sequence sent on
the streaming response body. -/
def writesOf (es : List Event) : List String :=
  es.filterMap fun e =>
    match e with
    | Event.write s => some s
    | _ => none

/-- The contents of the upstream calls issued, in order. -/
def callsOf (es : List Event) : List (List Turn) :=
  es.filterMap fun e =>
    match e with
    | Event.upstreamCall c => some c
    | _ => none

/-- Whether an event is a JSON error response. -/
def isJsonError (e : Event) : Bool :=
  match e with
  | Event.jsonStatus _ _ => true
  | _ => false

/-- Whether streaming response headers were sent. -/
def sentHeaders (es : List Event) : Bool :=
  es.any fun e =>
    match e with
    | Event.writeHead _ => true
    | _ => false

/-- A JSON string literal (strings are assumed to need no escaping). -/
def quoteStr (s : String) : String := "\"" ++ s ++ "\""

/-- A JSON member, omitted when the value is `undefined`, mirroring
`JSON.stringify`. -/
def jsonMember (k : String) (v : Option String) : List String :=
  match v with
  | some s => [quoteStr k ++ ":" ++ quoteStr s]
  | none => []

/-- `JSON.stringify` of one mapped source object `\x7buri, title\x7d`. -/
def sourceObjJson (uri title : Option String) : String :=
  "\x7b" ++ String.intercalate "," (jsonMember "uri" uri ++ jsonMember "title" title) ++ "\x7d"

/-- `JSON.stringify` of the mapped sources array of the fail-fast chunk loop. -/
def sourcesArrayJson (l : List (Option String × Option String)) : String :=
  "[" ++ String.intercalate "," (l.map fun p => sourceObjJson p.1 p.2) ++ "]"

/-- `JSON.stringify` of the filtered, fully-present sources array of the
retry chunk loop. -/
def fullSourcesJson (l : List (String × String)) : String :=
  "[" ++ String.intercalate ","
    (l.map fun p => "\x7b" ++ quoteStr "uri" ++ ":" ++ quoteStr p.1 ++ ","
      ++ quoteStr "title" ++ ":" ++ quoteStr p.2 ++ "\x7d") ++ "]"

/-- Whether `sep` is a prefix of the character list. -/
def isPrefixOfChars : List Char → List Char → Bool
  | [], _ => true
  | _ :: _, [] => false
  | a :: as, b :: bs => a == b && isPrefixOfChars as bs

/-- Fuel-driven splitter over character lists, mirroring the semantics of
`String.prototype.split` with a non-empty string separator. -/
def splitCharsAux (sep : List Char) : Nat → List Char → List Char → List (List Char)
  | _, acc, [] => [acc.reverse]
  | 0, acc, rest => [acc.reverse ++ rest]
  | fuel + 1, acc, c :: rest =>
      if sep ≠ [] && isPrefixOfChars sep (c :: rest) then
        acc.reverse :: splitCharsAux sep fuel [] ((c :: rest).drop sep.length)
      else
        splitCharsAux sep fuel (c :: acc) rest

/-- JavaScript `s.split(sep)` for a non-empty string separator. -/
def jsSplit (s sep : String) : List String :=
  (splitCharsAux sep.data s.data.length [] s.data).map fun l => String.mk l

/-- The non-empty `text` of a chunk, when present: the chunks whose text the
loops forward. -/
def chunkText (c : Chunk) : Option String :=
  match c.text with
  | some t => if t ≠ "" then some t else none
  | none => none

/-- The non-empty texts of a chunk list, in order. -/
def textsOf (cs : List Chunk) : List String :=
  cs.filterMap chunkText

end CortexLuma

namespace CortexLuma.FailFast

/-- `const MAX_HISTORY_LENGTH = 50` (fail-fast revision of part_000). -/
def MAX_HISTORY_LENGTH : Nat := 50

/-- `const MAX_TOKEN_ESTIMATE = 10000` (fail-fast revision of part_000). -/
def MAX_TOKEN_ESTIMATE : Nat := 10000

/-- The body of a `/api/stream-chat` request as the fail-fast revision
destructures it: `history`, `prompt`, `image`. -/
structure Body where
  history : JsField (List Turn)
  prompt : JsField String
  image : Option ImageField
deriving DecidableEq

/-- The writes performed for one chunk of the fail-fast chunk loop:
`res.write(chunk.text)` when the text is truthy, then the `--SOURCES--`
marker whenever the chunk carries a grounding-attributions array. -/
def chunkWrites (c : Chunk) : List String :=
  (match c.text with
   | some t => if t ≠ "" then [t] else []
   | none => []) ++
  (match c.groundingAttributions with
   | some attrs =>
       ["\n--SOURCES--\n" ++ sourcesArrayJson (attrs.map fun a => (a.uri, a.title))]
   | none => [])

/-- The writes of the whole fail-fast chunk loop. -/
def streamWrites : List Chunk → List String
  | [] => []
  | c :: cs => chunkWrites c ++ streamWrites cs

/-- The contents assembly of the fail-fast handler: copy the history and
push one user turn holding the text part and, when the image object is
well-formed (truthy `data` and `mimeType`), the inline media part. -/
def assembleContents (history : List Turn) (prompt : String) (image : Option ImageField) :
    List Turn :=
  let userParts :=
    [Part.text prompt] ++
      (match image with
       | some img =>
           if truthy img.data && truthy img.mimeType then
             [Part.inlineData ⟨img.mimeType.getD "", img.data.getD ""⟩]
           else []
       | none => [])
  history ++ [⟨"user", userParts⟩]

/-- The `/api/stream-chat` handler of the fail-fast revision, as a function
from the request body and the upstream behaviour to the response events. -/
def streamChat (b : Body) (upstream : List Turn → Except String UpstreamStream) :
    List Event :=
  match b.history, b.prompt with
  | JsField.val history, JsField.val prompt =>
      if history.length > MAX_HISTORY_LENGTH || prompt.length > MAX_TOKEN_ESTIMATE then
        [Event.jsonStatus 400 "Request exceeds maximum history or prompt length limit."]
      else
        let contents := assembleContents history prompt b.image
        Event.writeHead 200 :: Event.upstreamCall contents ::
          (match upstream contents with
           | Except.error e => [Event.write ("\n--ERROR--\n" ++ e), Event.endStream]
           | Except.ok s =>
               (streamWrites s.chunks).map Event.write ++
                 (match s.failure with
                  | some e => [Event.write ("\n--ERROR--\n" ++ e), Event.endStream]
                  | none => [Event.endStream]))
  | _, _ => [Event.jsonStatus 400 "Invalid request: `history` and `prompt` are required."]

/-- The outcome of the `fetch` to the Imagen API, as the handler observes it. -/
inductive FetchResult where
  | fail (e : String)
  | notOk (status : Nat) (errMessage : Option String)
  | ok (bytesBase64Encoded : Option String)
deriving DecidableEq

/-- A JSON response body of `/api/generate-image`. -/
inductive RespBody where
  | imageUrl (u : String)
  | error (e : String)
deriving DecidableEq

/-- Whether a generate-image response body is the error form. -/
def RespBody.isError : RespBody → Bool
  | RespBody.error _ => true
  | _ => false

/-- The `/api/generate-image` handler of the fail-fast revision.  The boolean
records whether the external fetch was issued; the pair is the HTTP status
and JSON body. -/
def generateImage (prompt : JsField String) (upstream : FetchResult) :
    Bool × Nat × RespBody :=
  match prompt with
  | JsField.val p =>
      if p = "" || p.length < 5 then
        (false, 400, RespBody.error "Invalid prompt. Please provide a descriptive prompt.")
      else
        match upstream with
        | FetchResult.fail e =>
            (true, 500, RespBody.error ("Image generation failed: " ++ e))
        | FetchResult.notOk st msg =>
            (true, 500, RespBody.error
              ("Image generation failed: External Image API Error (" ++ toString st ++ "): "
                ++ (if truthy msg then msg.getD "" else "Unknown error from Imagen API")))
        | FetchResult.ok b64 =>
            if truthy b64 then
              (true, 200, RespBody.imageUrl ("data:image/png;base64," ++ b64.getD ""))
            else
              (true, 500, RespBody.error "Image generation failed: No image data received.")
  | _ => (false, 400, RespBody.error "Invalid prompt. Please provide a descriptive prompt.")

end CortexLuma.FailFast

namespace CortexLuma.Retry

/-- `const MAX_HISTORY_LENGTH = 50` (retry revision of part_000). -/
def MAX_HISTORY_LENGTH : Nat := 50

/-- `const MAX_PROMPT_LENGTH = 15000` (retry revision of part_000). -/
def MAX_PROMPT_LENGTH : Nat := 15000

/-- `const MAX_RETRIES = 3` (retry revision of part_000). -/
def MAX_RETRIES : Nat := 3

/-- The body of a `/api/stream-chat` request as the retry revision
destructures it: `history`, `prompt`, `base64Image`.  `none` stands for an
absent (or falsy) field. -/
structure Body where
  history : Option (List Turn)
  prompt : Option String
  base64Image : Option String
deriving DecidableEq

/-- JavaScript `arr.slice(-n)`: the last `n` elements. -/
def sliceLast (n : Nat) (l : List Turn) : List Turn :=
  l.drop (l.length - n)

/-- Parsing of the `base64Image` data URL of the retry revision: split on
`;base64,`, take the mime type after the colon of the first segment, and
throw (handled as a 400) when either component is falsy. -/
def parseBase64Image : Option String → Except Unit (Option MediaPartData)
  | none => Except.ok none
  | some s =>
      if s = "" then Except.ok none
      else
        let segs := jsSplit s ";base64,"
        let mimeTypePart := segs.headD ""
        let base64Data : Option String := segs[1]?
        let mimeType : Option String := (jsSplit mimeTypePart ":")[1]?
        if truthy mimeType && truthy base64Data then
          Except.ok (some ⟨mimeType.getD "", base64Data.getD ""⟩)
        else
          Except.error ()

/-- The writes performed for one chunk of the retry chunk loop:
`res.write(chunk.text)` when the text is truthy, then the `[METADATA]`
marker when the filtered sources of the grounding attributions are
non-empty. -/
def chunkWrites (c : Chunk) : List String :=
  (match c.text with
   | some t => if t ≠ "" then [t] else []
   | none => []) ++
  (match c.groundingAttributions with
   | some attrs =>
       let sources := attrs.filterMap fun a =>
         match a.uri, a.title with
         | some u, some t => if u ≠ "" && t ≠ "" then some (u, t) else none
         | _, _ => none
       if sources.length > 0 then
         ["\n[METADATA]" ++ "\x7b" ++ quoteStr "sources" ++ ":" ++ fullSourcesJson sources ++ "\x7d"]
       else []
   | none => [])

/-- The writes of the whole retry chunk loop. -/
def streamWrites : List Chunk → List String
  | [] => []
  | c :: cs => chunkWrites c ++ streamWrites cs

/-- The events of forwarding one successfully opened upstream stream:
the chunk writes, then on a mid-stream failure the `[STREAM_ERROR]` line and
the end, otherwise just the end (the `finally` block). -/
def forwardStream (s : UpstreamStream) : List Event :=
  (streamWrites s.chunks).map Event.write ++
    (match s.failure with
     | some e => [Event.write ("\n[STREAM_ERROR] Streaming connection lost: " ++ e), Event.endStream]
     | none => [Event.endStream])

/-- The `while (retries < MAX_RETRIES)` loop followed by the streaming phase.
`fuel` is `MAX_RETRIES - retries`, so `fuel = 0` is the loop guard failing
(the safeguard branch) and `fuel = 1` after a failure is
`retries + 1 >= MAX_RETRIES` (the fatal branch). -/
def streamPhase (contents : List Turn) (upstream : Nat → Except String UpstreamStream) :
    Nat → Nat → List Event
  | _, 0 => [Event.write "[STREAM_ERROR] Could not initialize Gemini stream.", Event.endStream]
  | retries, fuel + 1 =>
      Event.upstreamCall contents ::
        (match upstream retries with
         | Except.ok s => forwardStream s
         | Except.error e =>
             match fuel with
             | 0 => [Event.write ("[STREAM_ERROR] Gemini API failed: " ++ e), Event.endStream]
             | f + 1 => streamPhase contents upstream (retries + 1) (f + 1))

/-- The contents assembly of the retry handler: the sliced chat history plus
one pushed user turn holding the text part and, when present, the parsed
inline media part. -/
def assembleContents (chatHistory : List Turn) (prompt : String)
    (mediaOpt : Option MediaPartData) : List Turn :=
  let userParts :=
    [Part.text prompt] ++
      (match mediaOpt with
       | some m => [Part.inlineData m]
       | none => [])
  chatHistory ++ [⟨"user", userParts⟩]

/-- The `/api/stream-chat` handler of the retry revision.  `upstream n` is
the outcome of the `n`-th (0-based) `generateContentStream` attempt. -/
def streamChat (b : Body) (upstream : Nat → Except String UpstreamStream) : List Event :=
  match b.prompt with
  | none => [Event.jsonStatus 400 "Prompt is required."]
  | some prompt =>
      if prompt = "" then [Event.jsonStatus 400 "Prompt is required."]
      else if prompt.length > MAX_PROMPT_LENGTH then
        [Event.jsonStatus 400
          ("Prompt exceeds maximum length of " ++ toString MAX_PROMPT_LENGTH ++ " characters.")]
      else
        let chatHistory :=
          match b.history with
          | some h => sliceLast MAX_HISTORY_LENGTH h
          | none => []
        match parseBase64Image b.base64Image with
        | Except.error _ => [Event.jsonStatus 400 "Invalid image data provided."]
        | Except.ok mediaOpt =>
            let contents := assembleContents chatHistory prompt mediaOpt
            Event.writeHead 200 :: streamPhase contents upstream 0 MAX_RETRIES

end CortexLuma.Retry

namespace CortexLuma.V1

/-- The `/api/stream-chat` handler of the first revision in `server.js`:
`writeHead(200)` first, then the empty-history check, then a single
non-retried upstream call forwarding only the chunk texts. -/
def streamChat (history : Option (List Turn))
    (upstream : List Turn → Except String UpstreamStream) : List Event :=
  Event.writeHead 200 ::
    (match history with
     | none => [Event.write "Error: Conversation history is empty.", Event.endStream]
     | some h =>
         if h.length = 0 then
           [Event.write "Error: Conversation history is empty.", Event.endStream]
         else
           Event.upstreamCall h ::
             (match upstream h with
              | Except.error e =>
                  [Event.write ("Error: An internal API error occurred: " ++ e), Event.endStream]
              | Except.ok s =>
                  (textsOf s.chunks).map Event.write ++
                    (match s.failure with
                     | some e =>
                         [Event.write ("Error: An internal API error occurred: " ++ e),
                          Event.endStream]
                     | none => [Event.endStream])))

/-- A JSON response body of `/api/generate-image` in the first revision of
`server.js`: on success, `\x7bimage: \x7bdata, mimeType\x7d\x7d`. -/
inductive RespBody where
  | image (data : String) (mimeType : String)
  | error (e : String)
deriving DecidableEq

/-- The `/api/generate-image` handler of the first revision in `server.js`.
`upstream` is the outcome of `ai.models.generateImages` together with the
extraction of the first generated image. -/
def generateImage (prompt : Option String)
    (upstream : Except String (String × String)) : Nat × RespBody :=
  match prompt with
  | none => (400, RespBody.error "Image prompt is required.")
  | some p =>
      if p = "" then (400, RespBody.error "Image prompt is required.")
      else
        match upstream with
        | Except.ok (data, mime) => (200, RespBody.image data mime)
        | Except.error e =>
            (500, RespBody.error
              ("Image generation failed. This could be due to a safety violation in the prompt or an API error. Details: "
                ++ e))

end CortexLuma.V1

namespace CortexLuma.V2

/-- The contents assembly of the second revision in `server.js`: start from
the history and, when `imageParts` is non-empty, push the image parts onto
the last turn when it is a user turn, else push a new user turn holding only
the image parts. -/
def assembleContents (history : List Turn) (imageParts : List Part) : List Turn :=
  if imageParts.length > 0 then
    match history.getLast? with
    | some last =>
        if last.role = "user" then
          history.dropLast ++ [⟨last.role, last.parts ++ imageParts⟩]
        else
          history ++ [⟨"user", imageParts⟩]
    | none => history ++ [⟨"user", imageParts⟩]
  else history

end CortexLuma.V2

namespace CortexLuma

/-- An upstream stub that yields an empty, cleanly ending stream. -/
def uEmpty : List Turn → Except String UpstreamStream :=
  fun _ => Except.ok ⟨[], none⟩

/-- An attempt-indexed upstream stub that yields an empty, cleanly ending
stream on every attempt. -/
def uEmptyR : Nat → Except String UpstreamStream :=
  fun _ => Except.ok ⟨[], none⟩

/-- Write events contribute their payloads, in order, to `writesOf`. -/
theorem writesOf_map_write_append (ws : List String) (rest : List Event) :
    writesOf (ws.map Event.write ++ rest) = ws ++ writesOf rest := by
  induction ws with
  | nil => simp
  | cons w ws ih =>
      simp only [List.map_cons, List.cons_append, writesOf, List.filterMap_cons]
      simp only [writesOf] at ih
      rw [ih]

/-- Write events contribute no upstream calls to `callsOf`. -/
theorem callsOf_map_write_append (ws : List String) (rest : List Event) :
    callsOf (ws.map Event.write ++ rest) = callsOf rest := by
  induction ws with
  | nil => simp
  | cons w ws ih =>
      simp only [List.map_cons, List.cons_append, callsOf, List.filterMap_cons]
      simp only [callsOf] at ih
      rw [ih]

end CortexLuma

namespace CortexLuma

/-- Claim C10: in the fail-fast revision of `/api/generate-image`, a prompt
that is present and a string but shorter than 5 characters is rejected with
HTTP 400 and the fixed JSON error, and the upstream image API is never
called. -/
theorem generate_image_short_prompt_rejected (p : String) (u : FailFast.FetchResult)
    (hshort : p.length < 5) :
    FailFast.generateImage (JsField.val p) u =
      (false, 400, FailFast.RespBody.error "Invalid prompt. Please provide a descriptive prompt.") := by
  unfold FailFast.generateImage
  simp [hshort]

/-- Witness for C10 at the concrete prompt `hi`. -/
theorem generate_image_short_prompt_rejected_witness :
    ("hi" : String).length < 5 ∧
      FailFast.generateImage (JsField.val "hi") (FailFast.FetchResult.ok (some "AAAA")) =
        (false, 400, FailFast.RespBody.error "Invalid prompt. Please provide a descriptive prompt.") :=
  ⟨by decide, generate_image_short_prompt_rejected "hi" (FailFast.FetchResult.ok (some "AAAA")) (by decide)⟩

/-- Claim C9 counterexample: the first revision of `/api/generate-image` in
`server.js` answers a successful upstream call with status 200 and a body of
the form `image (data) (mimeType)` rather than an `imageUrl` data URL. -/
theorem generate_image_v1_success_body :
    V1.generateImage (some "a red fox in the snow") (Except.ok ("AAAA", "image/png")) =
      (200, V1.RespBody.image "AAAA" "image/png") := by decide

/-- Claim C9 (amended): in the fail-fast revision of `/api/generate-image`, a
missing prompt yields 400 with a JSON error body, a successful upstream
response yields 200 with an `imageUrl` that is a `data:image/png;base64,`
URL, and every other outcome is a 400/500 with a JSON error body. -/
theorem generate_image_responses (u : FailFast.FetchResult) :
    (FailFast.generateImage JsField.missing u =
        (false, 400, FailFast.RespBody.error "Invalid prompt. Please provide a descriptive prompt."))
  ∧ (∀ p b64, 5 ≤ p.length → b64 ≠ "" →
        FailFast.generateImage (JsField.val p) (FailFast.FetchResult.ok (some b64)) =
          (true, 200, FailFast.RespBody.imageUrl ("data:image/png;base64," ++ b64)))
  ∧ (∀ p, (∃ uu, (FailFast.generateImage p u).2.2 = FailFast.RespBody.imageUrl uu ∧
              (FailFast.generateImage p u).2.1 = 200)
        ∨ (((FailFast.generateImage p u).2.1 = 400 ∨ (FailFast.generateImage p u).2.1 = 500)
            ∧ (FailFast.generateImage p u).2.2.isError = true)) := by
  refine ⟨rfl, ?_, ?_⟩
  · intro p b64 hlen hb64
    have hne : ¬ p = "" := by
      intro h
      subst h
      simp at hlen
    have hsh : ¬ p.length < 5 := by omega
    unfold FailFast.generateImage
    simp [hne, hsh, truthy, hb64]
  · intro p
    cases p with
    | missing => right; exact ⟨Or.inl rfl, rfl⟩
    | invalid => right; exact ⟨Or.inl rfl, rfl⟩
    | val q =>
        unfold FailFast.generateImage
        by_cases hq : (q = "" || q.length < 5) = true
        · simp only [hq]
          right
          exact ⟨Or.inl rfl, rfl⟩
        · simp only [hq]
          cases u with
          | fail e => simp [FailFast.RespBody.isError]
          | notOk st msg => simp [FailFast.RespBody.isError]
          | ok b64 =>
              by_cases hb : truthy b64 = true
              · simp [hb]
              · simp [hb, FailFast.RespBody.isError]

/-- Witness for C9 at a concrete prompt and successful upstream response. -/
theorem generate_image_responses_witness :
    FailFast.generateImage (JsField.val "a red fox") (FailFast.FetchResult.ok (some "AAAA")) =
      (true, 200, FailFast.RespBody.imageUrl "data:image/png;base64,AAAA") :=
  (generate_image_responses (FailFast.FetchResult.ok (some "AAAA"))).2.1
    "a red fox" "AAAA" (by decide) (by decide)

/-- Claim C8 counterexample: the fail-fast revision accepts the body with
`history = []` and `prompt = ""` (the empty string passes the
`typeof prompt` check and the length bounds) and issues the upstream call
with a single empty text turn. -/
theorem empty_prompt_reaches_upstream_failfast :
    FailFast.streamChat ⟨JsField.val [], JsField.val "", none⟩ uEmpty =
      [Event.writeHead 200, Event.upstreamCall [⟨"user", [Part.text ""]⟩], Event.endStream] := by
  decide

/-- Claim C8 (amended): the retry revision rejects an absent or empty prompt
with HTTP 400 and no upstream call; the fail-fast revision rejects an absent
prompt the same way (but, unlike the claim, accepts an empty-string
prompt). -/
theorem empty_prompt_rejected
    (b : Retry.Body) (u : Nat → Except String UpstreamStream)
    (hp : b.prompt = none ∨ b.prompt = some "")
    (fb : FailFast.Body) (fu : List Turn → Except String UpstreamStream)
    (hfp : fb.prompt = JsField.missing) :
    Retry.streamChat b u = [Event.jsonStatus 400 "Prompt is required."]
  ∧ FailFast.streamChat fb fu =
      [Event.jsonStatus 400 "Invalid request: `history` and `prompt` are required."] := by
  constructor
  · obtain ⟨bh, bp, bi⟩ := b
    unfold Retry.streamChat
    rcases hp with hp | hp <;> simp_all
  · obtain ⟨fh, fpr, fi⟩ := fb
    simp only at hfp
    subst hfp
    unfold FailFast.streamChat
    cases fh <;> rfl

/-- Witness for C8 at the empty history with absent and empty prompts. -/
theorem empty_prompt_rejected_witness :
    Retry.streamChat ⟨some [], some "", none⟩ uEmptyR =
        [Event.jsonStatus 400 "Prompt is required."]
  ∧ FailFast.streamChat ⟨JsField.val [], JsField.missing, none⟩ uEmpty =
      [Event.jsonStatus 400 "Invalid request: `history` and `prompt` are required."] :=
  empty_prompt_rejected ⟨some [], some "", none⟩ uEmptyR (Or.inr rfl)
    ⟨JsField.val [], JsField.missing, none⟩ uEmpty rfl

end CortexLuma

namespace CortexLuma

/-- `slice(-n)` is the identity on histories within the length bound. -/
theorem sliceLast_of_le (n : Nat) (l : List Turn) (h : l.length ≤ n) :
    Retry.sliceLast n l = l := by
  unfold Retry.sliceLast
  rw [Nat.sub_eq_zero_of_le h, List.drop_zero]

/-- The forwarding phase of the retry revision issues no upstream calls. -/
theorem callsOf_forwardStream (s : UpstreamStream) :
    callsOf (Retry.forwardStream s) = [] := by
  unfold Retry.forwardStream
  cases s.failure <;> simp [callsOf_map_write_append, callsOf]

/-- Every upstream call issued by the retry phase carries the assembled
contents. -/
theorem callsOf_streamPhase_mem (c : List Turn) (u : Nat → Except String UpstreamStream)
    (f r : Nat) : ∀ x ∈ callsOf (Retry.streamPhase c u r f), x = c := by
  induction f generalizing r with
  | zero =>
      intro x hx
      simp [Retry.streamPhase, callsOf] at hx
  | succ f ih =>
      intro x hx
      unfold Retry.streamPhase at hx
      cases hur : u r with
      | ok s =>
          rw [hur] at hx
          simp only [callsOf, List.filterMap_cons] at hx
          rcases List.mem_cons.mp hx with hx | hx
          · exact hx
          · rw [show (Retry.forwardStream s).filterMap _ = callsOf (Retry.forwardStream s) from rfl,
              callsOf_forwardStream] at hx
            simp at hx
      | error e =>
          rw [hur] at hx
          cases f with
          | zero =>
              simp [callsOf] at hx
              exact hx
          | succ g =>
              simp only [callsOf, List.filterMap_cons] at hx
              rcases List.mem_cons.mp hx with hx | hx
              · exact hx
              · exact ih (r + 1) x hx

/-- For a body that passes the fail-fast validation, the handler issues
exactly one upstream call, carrying the assembled contents. -/
theorem callsOf_streamChat_failfast (h : List Turn) (p : String) (img : Option ImageField)
    (u : List Turn → Except String UpstreamStream)
    (hh : h.length ≤ FailFast.MAX_HISTORY_LENGTH)
    (hp : p.length ≤ FailFast.MAX_TOKEN_ESTIMATE) :
    callsOf (FailFast.streamChat ⟨JsField.val h, JsField.val p, img⟩ u) =
      [FailFast.assembleContents h p img] := by
  have hcond : (decide (h.length > FailFast.MAX_HISTORY_LENGTH)
      || decide (p.length > FailFast.MAX_TOKEN_ESTIMATE)) = false := by
    simp only [Bool.or_eq_false_iff, decide_eq_false_iff_not]
    exact ⟨Nat.not_lt.mpr hh, Nat.not_lt.mpr hp⟩
  unfold FailFast.streamChat
  dsimp only
  rw [if_neg (by rw [hcond]; exact Bool.false_ne_true)]
  cases hu : u (FailFast.assembleContents h p img) with
  | error e => simp [hu, callsOf]
  | ok s =>
      cases hf : s.failure with
      | none =>
          simp only [hu, hf, callsOf, List.filterMap_cons]
          have hm := callsOf_map_write_append (FailFast.streamWrites s.chunks) [Event.endStream]
          simp only [callsOf] at hm
          rw [hm]
          simp
      | some e =>
          simp only [hu, hf, callsOf, List.filterMap_cons]
          have hm := callsOf_map_write_append (FailFast.streamWrites s.chunks)
            [Event.write ("\n--ERROR--\n" ++ e), Event.endStream]
          simp only [callsOf] at hm
          rw [hm]
          simp

/-- Claim C6 counterexample: the fail-fast revision silently drops a
malformed image object (mimeType present, data absent): the request is
accepted, streaming headers are sent, and the upstream call is issued with a
text-only turn instead of any rejection. -/
theorem malformed_image_silently_dropped :
    FailFast.streamChat
        ⟨JsField.val [], JsField.val "hello", some ⟨none, some "image/png"⟩⟩ uEmpty =
      [Event.writeHead 200, Event.upstreamCall [⟨"user", [Part.text "hello"]⟩], Event.endStream] := by
  decide

/-- Claim C6 (amended): the retry revision rejects a `base64Image` that does
not split into a valid mimeType and data pair with HTTP 400, never reaching
the assembler or the upstream call (the fail-fast revision instead silently
omits a malformed image object). -/
theorem malformed_image_rejected (b : Retry.Body) (u : Nat → Except String UpstreamStream)
    (p : String) (hp : b.prompt = some p) (hne : p ≠ "")
    (hlen : p.length ≤ Retry.MAX_PROMPT_LENGTH)
    (herr : Retry.parseBase64Image b.base64Image = Except.error ()) :
    Retry.streamChat b u = [Event.jsonStatus 400 "Invalid image data provided."] := by
  obtain ⟨bh, bp, bi⟩ := b
  simp only at hp herr
  subst hp
  unfold Retry.streamChat
  simp [hne, Nat.not_lt.mpr hlen, herr]

/-- Witness for C6 at the concrete malformed data URL `garbage`. -/
theorem malformed_image_rejected_witness :
    Retry.parseBase64Image (some "garbage") = Except.error () ∧
      Retry.streamChat ⟨some [], some "hello", some "garbage"⟩ uEmptyR =
        [Event.jsonStatus 400 "Invalid image data provided."] :=
  ⟨rfl,
    malformed_image_rejected ⟨some [], some "hello", some "garbage"⟩ uEmptyR
      "hello" rfl (by decide) (by decide) rfl⟩

/-- Claim C5 counterexample: the second revision in `server.js` merges the
media parts into the last existing user turn, so the assembled contents are
not the history plus an additional trailing turn (the turn count does not
grow). -/
theorem image_parts_merged_not_appended :
    V2.assembleContents [⟨"user", [Part.text "hi"]⟩]
        [Part.inlineData ⟨"image/png", "AAAA"⟩] =
      [⟨"user", [Part.text "hi", Part.inlineData ⟨"image/png", "AAAA"⟩]⟩]
  ∧ (V2.assembleContents [⟨"user", [Part.text "hi"]⟩]
        [Part.inlineData ⟨"image/png", "AAAA"⟩]).length ≠
      ([⟨"user", [Part.text "hi"]⟩] : List Turn).length + 1 := by
  decide

/-- Claim C5 (amended): in the revisions that take the new message as a
separate prompt field (fail-fast and retry revisions of part_000), a
validated request with a text prompt and one valid media attachment yields
assembled contents equal to the history plus a single additional trailing
user turn holding the text part followed by the media part, never two
separate trailing turns; the second revision in `server.js` instead merges
media into the last existing user turn. -/
theorem single_multimodal_turn
    (h : List Turn) (p d m : String) (u : List Turn → Except String UpstreamStream)
    (hh : h.length ≤ FailFast.MAX_HISTORY_LENGTH) (hp : p.length ≤ FailFast.MAX_TOKEN_ESTIMATE)
    (hd : d ≠ "") (hm : m ≠ "")
    (rb : Retry.Body) (ru : Nat → Except String UpstreamStream)
    (rh : List Turn) (rp : String) (med : MediaPartData)
    (hrb : rb.history = some rh) (hrhl : rh.length ≤ Retry.MAX_HISTORY_LENGTH)
    (hrp : rb.prompt = some rp) (hrne : rp ≠ "")
    (hrlen : rp.length ≤ Retry.MAX_PROMPT_LENGTH)
    (hrimg : Retry.parseBase64Image rb.base64Image = Except.ok (some med)) :
    callsOf (FailFast.streamChat ⟨JsField.val h, JsField.val p, some ⟨some d, some m⟩⟩ u) =
      [h ++ [⟨"user", [Part.text p, Part.inlineData ⟨m, d⟩]⟩]]
  ∧ ∀ c ∈ callsOf (Retry.streamChat rb ru),
      c = rh ++ [⟨"user", [Part.text rp, Part.inlineData med]⟩] := by
  constructor
  · rw [callsOf_streamChat_failfast h p (some ⟨some d, some m⟩) u hh hp]
    unfold FailFast.assembleContents
    simp [truthy, hd, hm]
  · obtain ⟨bh, bp, bi⟩ := rb
    simp only at hrb hrp hrimg
    subst hrb hrp
    unfold Retry.streamChat
    dsimp only
    rw [if_neg hrne, if_neg (Nat.not_lt.mpr hrlen)]
    simp only [hrimg, sliceLast_of_le Retry.MAX_HISTORY_LENGTH rh hrhl]
    intro c hc
    simp only [callsOf, List.filterMap_cons] at hc
    have hmem := callsOf_streamPhase_mem
      (Retry.assembleContents rh rp (some med)) ru Retry.MAX_RETRIES 0
    simp only [callsOf] at hmem
    have hc2 : c = Retry.assembleContents rh rp (some med) := hmem c hc
    rw [hc2]
    unfold Retry.assembleContents
    simp

/-- Witness for C5 at a concrete history, prompt and data URL. -/
theorem single_multimodal_turn_witness :
    callsOf (FailFast.streamChat
        ⟨JsField.val [⟨"model", [Part.text "ok"]⟩], JsField.val "look",
          some ⟨some "AAAA", some "image/png"⟩⟩ uEmpty) =
      [[⟨"model", [Part.text "ok"]⟩] ++
        [⟨"user", [Part.text "look", Part.inlineData ⟨"image/png", "AAAA"⟩]⟩]]
  ∧ ∀ c ∈ callsOf (Retry.streamChat
        ⟨some [⟨"model", [Part.text "ok"]⟩], some "look",
          some "data:image/png;base64,AAAA"⟩ uEmptyR),
      c = [⟨"model", [Part.text "ok"]⟩] ++
        [⟨"user", [Part.text "look", Part.inlineData ⟨"image/png", "AAAA"⟩]⟩] :=
  single_multimodal_turn [⟨"model", [Part.text "ok"]⟩] "look" "AAAA" "image/png" uEmpty
    (by decide) (by decide) (by decide) (by decide)
    ⟨some [⟨"model", [Part.text "ok"]⟩], some "look", some "data:image/png;base64,AAAA"⟩
    uEmptyR [⟨"model", [Part.text "ok"]⟩] "look" ⟨"image/png", "AAAA"⟩
    rfl (by decide) rfl (by decide) (by decide) rfl

end CortexLuma

namespace CortexLuma

/-- Claim C7: for a validated text-only request, both part_000 revisions of
the stream-chat handler send upstream exactly the callers history with one
new trailing turn holding role user and the single text part, with every
earlier turn structurally unchanged (the assembled contents equal
`history ++ [turn]`). -/
theorem text_only_append
    (h : List Turn) (p : String) (u : List Turn → Except String UpstreamStream)
    (hh : h.length ≤ FailFast.MAX_HISTORY_LENGTH)
    (hp : p.length ≤ FailFast.MAX_TOKEN_ESTIMATE)
    (rh : List Turn) (rp : String) (ru : Nat → Except String UpstreamStream)
    (hrh : rh.length ≤ Retry.MAX_HISTORY_LENGTH) (hrne : rp ≠ "")
    (hrlen : rp.length ≤ Retry.MAX_PROMPT_LENGTH) :
    callsOf (FailFast.streamChat ⟨JsField.val h, JsField.val p, none⟩ u) =
      [h ++ [⟨"user", [Part.text p]⟩]]
  ∧ ∀ c ∈ callsOf (Retry.streamChat ⟨some rh, some rp, none⟩ ru),
      c = rh ++ [⟨"user", [Part.text rp]⟩] := by
  constructor
  · rw [callsOf_streamChat_failfast h p none u hh hp]
    unfold FailFast.assembleContents
    simp
  · unfold Retry.streamChat
    dsimp only
    rw [if_neg hrne, if_neg (Nat.not_lt.mpr hrlen)]
    simp only [Retry.parseBase64Image, sliceLast_of_le Retry.MAX_HISTORY_LENGTH rh hrh]
    intro c hc
    simp only [callsOf, List.filterMap_cons] at hc
    have hmem := callsOf_streamPhase_mem (Retry.assembleContents rh rp none) ru
      Retry.MAX_RETRIES 0
    simp only [callsOf] at hmem
    have hc2 : c = Retry.assembleContents rh rp none := hmem c hc
    rw [hc2]
    unfold Retry.assembleContents
    simp

/-- Witness for C7 at a concrete one-turn history and prompt. -/
theorem text_only_append_witness :
    callsOf (FailFast.streamChat
        ⟨JsField.val [⟨"model", [Part.text "ok"]⟩], JsField.val "hi", none⟩ uEmpty) =
      [[⟨"model", [Part.text "ok"]⟩] ++ [⟨"user", [Part.text "hi"]⟩]]
  ∧ ∀ c ∈ callsOf (Retry.streamChat
        ⟨some [⟨"model", [Part.text "ok"]⟩], some "hi", none⟩ uEmptyR),
      c = [⟨"model", [Part.text "ok"]⟩] ++ [⟨"user", [Part.text "hi"]⟩] :=
  text_only_append [⟨"model", [Part.text "ok"]⟩] "hi" uEmpty (by decide) (by decide)
    [⟨"model", [Part.text "ok"]⟩] "hi" uEmptyR (by decide) (by decide) (by decide)

/-- Claim C2 counterexample: the first revision in `server.js` sends the 200
streaming headers before its history check: on a body with no history it
responds with headers already sent and an in-band error line, never a 4xx
JSON rejection. -/
theorem headers_before_validation_v1 :
    V1.streamChat none uEmpty =
      [Event.writeHead 200, Event.write "Error: Conversation history is empty.",
        Event.endStream]
  ∧ sentHeaders (V1.streamChat none uEmpty) = true
  ∧ (V1.streamChat none uEmpty).all (fun e => !isJsonError e) = true := by
  decide

/-- Claim C2 (amended): in the fail-fast revision of part_000, a body whose
history is missing or not a sequence or whose prompt is not a string is
rejected with 400 and a structured reason, a body over the history or prompt
length bound is rejected with 400, in both cases with no upstream call and
no streaming headers, and every body within all bounds is accepted (the
response starts with the streaming headers).  The first revision in
`server.js` instead sends the streaming headers before its history check. -/
theorem failfast_validation (b : FailFast.Body) (u : List Turn → Except String UpstreamStream) :
    ((b.history.isVal = false ∨ b.prompt.isVal = false) →
        FailFast.streamChat b u =
            [Event.jsonStatus 400 "Invalid request: `history` and `prompt` are required."]
          ∧ callsOf (FailFast.streamChat b u) = []
          ∧ sentHeaders (FailFast.streamChat b u) = false)
  ∧ (∀ h p, b.history = JsField.val h → b.prompt = JsField.val p →
        (FailFast.MAX_HISTORY_LENGTH < h.length ∨ FailFast.MAX_TOKEN_ESTIMATE < p.length) →
        FailFast.streamChat b u =
            [Event.jsonStatus 400 "Request exceeds maximum history or prompt length limit."]
          ∧ callsOf (FailFast.streamChat b u) = []
          ∧ sentHeaders (FailFast.streamChat b u) = false)
  ∧ (∀ h p, b.history = JsField.val h → b.prompt = JsField.val p →
        h.length ≤ FailFast.MAX_HISTORY_LENGTH → p.length ≤ FailFast.MAX_TOKEN_ESTIMATE →
        (FailFast.streamChat b u).head? = some (Event.writeHead 200)) := by
  obtain ⟨bh, bp, bi⟩ := b
  refine ⟨?_, ?_, ?_⟩
  · intro hinv
    have heq : FailFast.streamChat ⟨bh, bp, bi⟩ u =
        [Event.jsonStatus 400 "Invalid request: `history` and `prompt` are required."] := by
      unfold FailFast.streamChat
      cases bh <;> cases bp <;>
        first
          | rfl
          | (exfalso; rcases hinv with hv | hv <;> simp [JsField.isVal] at hv)
    exact ⟨heq, by rw [heq]; rfl, by rw [heq]; rfl⟩
  · intro h p hbh hbp hover
    dsimp only at hbh hbp
    subst hbh hbp
    have hcond : (decide (h.length > FailFast.MAX_HISTORY_LENGTH)
        || decide (p.length > FailFast.MAX_TOKEN_ESTIMATE)) = true := by
      rcases hover with hv | hv <;> simp [hv]
    have heq : FailFast.streamChat ⟨JsField.val h, JsField.val p, bi⟩ u =
        [Event.jsonStatus 400 "Request exceeds maximum history or prompt length limit."] := by
      unfold FailFast.streamChat
      dsimp only
      rw [if_pos (by rw [hcond])]
    exact ⟨heq, by rw [heq]; rfl, by rw [heq]; rfl⟩
  · intro h p hbh hbp hlh hlp
    dsimp only at hbh hbp
    subst hbh hbp
    have hcond : (decide (h.length > FailFast.MAX_HISTORY_LENGTH)
        || decide (p.length > FailFast.MAX_TOKEN_ESTIMATE)) = false := by
      simp only [Bool.or_eq_false_iff, decide_eq_false_iff_not]
      exact ⟨Nat.not_lt.mpr hlh, Nat.not_lt.mpr hlp⟩
    unfold FailFast.streamChat
    dsimp only
    rw [if_neg (by rw [hcond]; exact Bool.false_ne_true)]
    rfl

/-- Witness for C2: a missing history, an oversized history, and an
in-bounds body. -/
theorem failfast_validation_witness :
    (FailFast.streamChat ⟨JsField.missing, JsField.val "hi", none⟩ uEmpty =
          [Event.jsonStatus 400 "Invalid request: `history` and `prompt` are required."]
        ∧ callsOf (FailFast.streamChat ⟨JsField.missing, JsField.val "hi", none⟩ uEmpty) = []
        ∧ sentHeaders (FailFast.streamChat ⟨JsField.missing, JsField.val "hi", none⟩ uEmpty)
            = false)
  ∧ (FailFast.streamChat
          ⟨JsField.val (List.replicate 51 ⟨"user", [Part.text "x"]⟩), JsField.val "hi", none⟩
          uEmpty =
          [Event.jsonStatus 400 "Request exceeds maximum history or prompt length limit."]
        ∧ callsOf (FailFast.streamChat
            ⟨JsField.val (List.replicate 51 ⟨"user", [Part.text "x"]⟩), JsField.val "hi", none⟩
            uEmpty) = []
        ∧ sentHeaders (FailFast.streamChat
            ⟨JsField.val (List.replicate 51 ⟨"user", [Part.text "x"]⟩), JsField.val "hi", none⟩
            uEmpty) = false)
  ∧ (FailFast.streamChat ⟨JsField.val [], JsField.val "hi", none⟩ uEmpty).head? =
      some (Event.writeHead 200) :=
  ⟨(failfast_validation ⟨JsField.missing, JsField.val "hi", none⟩ uEmpty).1 (Or.inl rfl),
   (failfast_validation
        ⟨JsField.val (List.replicate 51 ⟨"user", [Part.text "x"]⟩), JsField.val "hi", none⟩
        uEmpty).2.1
      (List.replicate 51 ⟨"user", [Part.text "x"]⟩) "hi" rfl rfl (Or.inl (by decide)),
   (failfast_validation ⟨JsField.val [], JsField.val "hi", none⟩ uEmpty).2.2
      [] "hi" rfl rfl (by decide) (by decide)⟩

end CortexLuma

namespace CortexLuma

/-- One successful attempt of the retry loop: the stream is forwarded. -/
theorem streamPhase_ok_step (c : List Turn) (u : Nat → Except String UpstreamStream)
    (r f : Nat) (s : UpstreamStream) (hur : u r = Except.ok s) :
    Retry.streamPhase c u r (f + 1) = Event.upstreamCall c :: Retry.forwardStream s := by
  rw [Retry.streamPhase.eq_def]
  dsimp only
  rw [hur]

/-- A failed attempt with retries remaining: the loop runs again. -/
theorem streamPhase_error_step (c : List Turn) (u : Nat → Except String UpstreamStream)
    (r f : Nat) (e : String) (hur : u r = Except.error e) :
    Retry.streamPhase c u r (f + 2) =
      Event.upstreamCall c :: Retry.streamPhase c u (r + 1) (f + 1) := by
  rw [Retry.streamPhase.eq_def]
  dsimp only
  rw [hur]

/-- The last allowed attempt fails: the fatal error line ends the stream. -/
theorem streamPhase_fatal_step (c : List Turn) (u : Nat → Except String UpstreamStream)
    (r : Nat) (e : String) (hur : u r = Except.error e) :
    Retry.streamPhase c u r 1 =
      [Event.upstreamCall c, Event.write ("[STREAM_ERROR] Gemini API failed: " ++ e),
        Event.endStream] := by
  rw [Retry.streamPhase.eq_def]
  dsimp only
  rw [hur]

/-- Claim C3: the retry revision re-attempts the upstream call up to
MAX_RETRIES = 3 times before any data is forwarded: when attempts 1 and 2
fail and attempt 3 succeeds, exactly 3 upstream calls are made and the
stream is forwarded normally; when all 3 attempts fail, exactly 3 upstream
calls are made, a terminal error marker is written, and the stream ends
with no further attempt. -/
theorem retry_bound_three
    (rp : String) (hne : rp ≠ "") (hlen : rp.length ≤ Retry.MAX_PROMPT_LENGTH)
    (u : Nat → Except String UpstreamStream) (cs : List Chunk) (e0 e1 e2 : String) :
    (u 0 = Except.error e0 → u 1 = Except.error e1 → u 2 = Except.ok ⟨cs, none⟩ →
      Retry.streamChat ⟨none, some rp, none⟩ u =
        Event.writeHead 200 ::
          Event.upstreamCall [⟨"user", [Part.text rp]⟩] ::
          Event.upstreamCall [⟨"user", [Part.text rp]⟩] ::
          Event.upstreamCall [⟨"user", [Part.text rp]⟩] ::
          ((Retry.streamWrites cs).map Event.write ++ [Event.endStream]))
  ∧ (u 0 = Except.error e0 → u 1 = Except.error e1 → u 2 = Except.error e2 →
      Retry.streamChat ⟨none, some rp, none⟩ u =
        Event.writeHead 200 ::
          Event.upstreamCall [⟨"user", [Part.text rp]⟩] ::
          Event.upstreamCall [⟨"user", [Part.text rp]⟩] ::
          Event.upstreamCall [⟨"user", [Part.text rp]⟩] ::
          [Event.write ("[STREAM_ERROR] Gemini API failed: " ++ e2), Event.endStream]) := by
  constructor <;> intro h0 h1 h2 <;>
  · unfold Retry.streamChat
    dsimp only
    rw [if_neg hne, if_neg (Nat.not_lt.mpr hlen)]
    simp only [Retry.parseBase64Image]
    rw [show Retry.MAX_RETRIES = 1 + 2 from rfl]
    rw [streamPhase_error_step _ u 0 1 e0 h0]
    rw [show (1 : Nat) + 1 = 0 + 2 from rfl]
    rw [streamPhase_error_step _ u 1 0 e1 h1]
    first
      | rw [streamPhase_ok_step _ u 2 0 ⟨cs, none⟩ h2]
      | (rw [show (0 : Nat) + 1 = 1 from rfl]; rw [streamPhase_fatal_step _ u 2 e2 h2])
    rfl

/-- Witness for C3: an upstream failing on the first two attempts and
succeeding on the third, and one failing on all three. -/
theorem retry_bound_three_witness :
    (Retry.streamChat ⟨none, some "hi", none⟩
        (fun n => if n = 2 then Except.ok ⟨[⟨some "ok", none⟩], none⟩
                  else Except.error "boom") =
      Event.writeHead 200 ::
        Event.upstreamCall [⟨"user", [Part.text "hi"]⟩] ::
        Event.upstreamCall [⟨"user", [Part.text "hi"]⟩] ::
        Event.upstreamCall [⟨"user", [Part.text "hi"]⟩] ::
        ((Retry.streamWrites [⟨some "ok", none⟩]).map Event.write ++ [Event.endStream]))
  ∧ (Retry.streamChat ⟨none, some "hi", none⟩ (fun _ => Except.error "boom") =
      Event.writeHead 200 ::
        Event.upstreamCall [⟨"user", [Part.text "hi"]⟩] ::
        Event.upstreamCall [⟨"user", [Part.text "hi"]⟩] ::
        Event.upstreamCall [⟨"user", [Part.text "hi"]⟩] ::
        [Event.write ("[STREAM_ERROR] Gemini API failed: " ++ "boom"), Event.endStream]) :=
  ⟨(retry_bound_three "hi" (by decide) (by decide)
      (fun n => if n = 2 then Except.ok ⟨[⟨some "ok", none⟩], none⟩ else Except.error "boom")
      [⟨some "ok", none⟩] "boom" "boom" "unused").1 rfl rfl rfl,
   (retry_bound_three "hi" (by decide) (by decide)
      (fun _ => Except.error "boom") [] "boom" "boom" "boom").2 rfl rfl rfl⟩

end CortexLuma

namespace CortexLuma

/-- Claim C4: once forwarding has begun, a later upstream failure is never
retried.  In the retry revision, when attempt k (k < 3, all earlier
attempts failing) succeeds and the stream then fails mid-way, the whole
response is the headers, exactly k+1 upstream-call events all placed before
any write, the partial chunk writes, one in-band error marker, and the
stream end — no further call events and nothing after the end.  In the
fail-fast revision a mid-stream failure likewise yields the single call,
the partial writes, the error marker, and the end. -/
theorem no_retry_after_forwarding
    (rp : String) (hne : rp ≠ "") (hlen : rp.length ≤ Retry.MAX_PROMPT_LENGTH)
    (u : Nat → Except String UpstreamStream) (cs : List Chunk) (err : String)
    (k : Nat) (hk : k < Retry.MAX_RETRIES)
    (hfail : ∀ j, j < k → ∃ e, u j = Except.error e)
    (hok : u k = Except.ok ⟨cs, some err⟩)
    (fh : List Turn) (fp : String)
    (hfh : fh.length ≤ FailFast.MAX_HISTORY_LENGTH)
    (hfp : fp.length ≤ FailFast.MAX_TOKEN_ESTIMATE)
    (fu : List Turn → Except String UpstreamStream)
    (hfu : fu (FailFast.assembleContents fh fp none) = Except.ok ⟨cs, some err⟩) :
    Retry.streamChat ⟨none, some rp, none⟩ u =
      Event.writeHead 200 ::
        (List.replicate (k + 1) (Event.upstreamCall [⟨"user", [Part.text rp]⟩]) ++
          ((Retry.streamWrites cs).map Event.write ++
            [Event.write ("\n[STREAM_ERROR] Streaming connection lost: " ++ err),
             Event.endStream]))
  ∧ FailFast.streamChat ⟨JsField.val fh, JsField.val fp, none⟩ fu =
      Event.writeHead 200 ::
        Event.upstreamCall (FailFast.assembleContents fh fp none) ::
        ((FailFast.streamWrites cs).map Event.write ++
          [Event.write ("\n--ERROR--\n" ++ err), Event.endStream]) := by
  constructor
  · have hk3 : k < 3 := hk
    interval_cases k
    · unfold Retry.streamChat
      dsimp only
      rw [if_neg hne, if_neg (Nat.not_lt.mpr hlen)]
      simp only [Retry.parseBase64Image]
      rw [show Retry.MAX_RETRIES = 2 + 1 from rfl]
      rw [streamPhase_ok_step _ u 0 2 ⟨cs, some err⟩ hok]
      rfl
    · obtain ⟨e0, h0⟩ := hfail 0 (by omega)
      unfold Retry.streamChat
      dsimp only
      rw [if_neg hne, if_neg (Nat.not_lt.mpr hlen)]
      simp only [Retry.parseBase64Image]
      rw [show Retry.MAX_RETRIES = 1 + 2 from rfl]
      rw [streamPhase_error_step _ u 0 1 e0 h0]
      rw [streamPhase_ok_step _ u (0 + 1) 1 ⟨cs, some err⟩ hok]
      rfl
    · obtain ⟨e0, h0⟩ := hfail 0 (by omega)
      obtain ⟨e1, h1⟩ := hfail 1 (by omega)
      unfold Retry.streamChat
      dsimp only
      rw [if_neg hne, if_neg (Nat.not_lt.mpr hlen)]
      simp only [Retry.parseBase64Image]
      rw [show Retry.MAX_RETRIES = 1 + 2 from rfl]
      rw [streamPhase_error_step _ u 0 1 e0 h0]
      rw [show (1 : Nat) + 1 = 0 + 2 from rfl]
      rw [streamPhase_error_step _ u (0 + 1) 0 e1 h1]
      rw [streamPhase_ok_step _ u (0 + 1 + 1) 0 ⟨cs, some err⟩ hok]
      rfl
  · have hcond : (decide (fh.length > FailFast.MAX_HISTORY_LENGTH)
        || decide (fp.length > FailFast.MAX_TOKEN_ESTIMATE)) = false := by
      simp only [Bool.or_eq_false_iff, decide_eq_false_iff_not]
      exact ⟨Nat.not_lt.mpr hfh, Nat.not_lt.mpr hfp⟩
    unfold FailFast.streamChat
    dsimp only
    rw [if_neg (by rw [hcond]; exact Bool.false_ne_true)]
    rw [hfu]

/-- Witness for C4: attempt 1 fails, attempt 2 succeeds, and the stream then
fails after one forwarded chunk; the fail-fast revision sees the same
mid-stream failure. -/
theorem no_retry_after_forwarding_witness :
    Retry.streamChat ⟨none, some "hi", none⟩
        (fun n => if n = 0 then Except.error "boom"
                  else Except.ok ⟨[⟨some "Hel", none⟩], some "lost"⟩) =
      Event.writeHead 200 ::
        (List.replicate 2 (Event.upstreamCall [⟨"user", [Part.text "hi"]⟩]) ++
          ((Retry.streamWrites [⟨some "Hel", none⟩]).map Event.write ++
            [Event.write ("\n[STREAM_ERROR] Streaming connection lost: " ++ "lost"),
             Event.endStream]))
  ∧ FailFast.streamChat ⟨JsField.val [], JsField.val "hi", none⟩
        (fun _ => Except.ok ⟨[⟨some "Hel", none⟩], some "lost"⟩) =
      Event.writeHead 200 ::
        Event.upstreamCall (FailFast.assembleContents [] "hi" none) ::
        ((FailFast.streamWrites [⟨some "Hel", none⟩]).map Event.write ++
          [Event.write ("\n--ERROR--\n" ++ "lost"), Event.endStream]) :=
  no_retry_after_forwarding "hi" (by decide) (by decide)
    (fun n => if n = 0 then Except.error "boom"
              else Except.ok ⟨[⟨some "Hel", none⟩], some "lost"⟩)
    [⟨some "Hel", none⟩] "lost" 1 (by decide)
    (fun j hj => ⟨"boom", by
      cases j with
      | zero => rfl
      | succ n => omega⟩)
    rfl [] "hi" (by decide) (by decide)
    (fun _ => Except.ok ⟨[⟨some "Hel", none⟩], some "lost"⟩) rfl

end CortexLuma

namespace CortexLuma

/-- `textsOf` distributes over append. -/
theorem textsOf_append (as bs : List Chunk) :
    textsOf (as ++ bs) = textsOf as ++ textsOf bs := by
  simp [textsOf, List.filterMap_append]

/-- `textsOf` of a single chunk is its optional non-empty text. -/
theorem textsOf_single (c : Chunk) : textsOf [c] = (chunkText c).toList := by
  cases hct : chunkText c <;> simp [textsOf, List.filterMap_cons, hct]

/-- The fail-fast chunk loop distributes over append. -/
theorem failfast_streamWrites_append (as bs : List Chunk) :
    FailFast.streamWrites (as ++ bs) =
      FailFast.streamWrites as ++ FailFast.streamWrites bs := by
  induction as with
  | nil => rfl
  | cons a as ih =>
      simp only [List.cons_append, FailFast.streamWrites, List.append_assoc]
      exact congrArg (FailFast.chunkWrites a ++ ·) ih

/-- The retry chunk loop distributes over append. -/
theorem retry_streamWrites_append (as bs : List Chunk) :
    Retry.streamWrites (as ++ bs) = Retry.streamWrites as ++ Retry.streamWrites bs := by
  induction as with
  | nil => rfl
  | cons a as ih =>
      simp only [List.cons_append, Retry.streamWrites, List.append_assoc]
      exact congrArg (Retry.chunkWrites a ++ ·) ih

/-- A chunk with no grounding metadata contributes only its non-empty text
in the fail-fast loop. -/
theorem failfast_chunkWrites_no_meta (c : Chunk) (hc : c.groundingAttributions = none) :
    FailFast.chunkWrites c = (chunkText c).toList := by
  obtain ⟨t, g⟩ := c
  simp only at hc
  subst hc
  cases t with
  | none => rfl
  | some s =>
      unfold FailFast.chunkWrites chunkText
      dsimp only
      by_cases hs : s = "" <;> simp [hs]

/-- A chunk with no grounding metadata contributes only its non-empty text
in the retry loop. -/
theorem retry_chunkWrites_no_meta (c : Chunk) (hc : c.groundingAttributions = none) :
    Retry.chunkWrites c = (chunkText c).toList := by
  obtain ⟨t, g⟩ := c
  simp only at hc
  subst hc
  cases t with
  | none => rfl
  | some s =>
      unfold Retry.chunkWrites chunkText
      dsimp only
      by_cases hs : s = "" <;> simp [hs]

/-- When no chunk carries grounding metadata, the fail-fast loop forwards
exactly the non-empty texts, in order, with no marker. -/
theorem failfast_streamWrites_no_meta (cs : List Chunk)
    (h : ∀ c ∈ cs, c.groundingAttributions = none) :
    FailFast.streamWrites cs = textsOf cs := by
  induction cs with
  | nil => rfl
  | cons c cs ih =>
      simp only [FailFast.streamWrites]
      rw [failfast_chunkWrites_no_meta c (h c (by simp)),
        ih (fun d hd => h d (by simp [hd]))]
      cases hct : chunkText c <;> simp [textsOf, List.filterMap_cons, hct]

/-- When no chunk carries grounding metadata, the retry loop forwards
exactly the non-empty texts, in order, with no marker. -/
theorem retry_streamWrites_no_meta (cs : List Chunk)
    (h : ∀ c ∈ cs, c.groundingAttributions = none) :
    Retry.streamWrites cs = textsOf cs := by
  induction cs with
  | nil => rfl
  | cons c cs ih =>
      simp only [Retry.streamWrites]
      rw [retry_chunkWrites_no_meta c (h c (by simp)),
        ih (fun d hd => h d (by simp [hd]))]
      cases hct : chunkText c <;> simp [textsOf, List.filterMap_cons, hct]

/-- A chunk carrying grounding attributions contributes its non-empty text
followed by exactly one `--SOURCES--` marker in the fail-fast loop. -/
theorem failfast_chunkWrites_meta (c : Chunk) (attrs : List Attribution)
    (hc : c.groundingAttributions = some attrs) :
    FailFast.chunkWrites c =
      (chunkText c).toList ++
        ["\n--SOURCES--\n" ++ sourcesArrayJson (attrs.map fun a => (a.uri, a.title))] := by
  obtain ⟨t, g⟩ := c
  simp only at hc
  subst hc
  cases t with
  | none => rfl
  | some s =>
      unfold FailFast.chunkWrites chunkText
      dsimp only
      by_cases hs : s = "" <;> simp [hs]

/-- On fully-present sources the retry filter keeps every attribution. -/
theorem retry_filter_of_wellformed (attrs : List Attribution)
    (hw : ∀ a ∈ attrs, truthy a.uri = true ∧ truthy a.title = true) :
    (attrs.filterMap fun a =>
      match a.uri, a.title with
      | some u, some t => if u ≠ "" && t ≠ "" then some (u, t) else none
      | _, _ => none) = attrs.map fun a => (a.uri.getD "", a.title.getD "") := by
  induction attrs with
  | nil => rfl
  | cons a as ih =>
      obtain ⟨hau, hat⟩ := hw a (List.mem_cons_self a as)
      have has : ∀ d ∈ as, truthy d.uri = true ∧ truthy d.title = true :=
        fun d hd => hw d (List.mem_cons_of_mem a hd)
      cases hu : a.uri with
      | none => rw [hu] at hau; simp [truthy] at hau
      | some uu =>
          cases ht : a.title with
          | none => rw [ht] at hat; simp [truthy] at hat
          | some tt =>
              rw [hu] at hau
              rw [ht] at hat
              simp only [truthy, ne_eq, decide_eq_true_eq] at hau hat
              simp only [List.filterMap_cons, List.map_cons, hu, ht, Option.getD_some]
              rw [if_pos (by simp [hau, hat])]
              rw [ih has]

/-- A final chunk carrying non-empty, fully-present grounding attributions
contributes its non-empty text followed by exactly one `[METADATA]` marker
in the retry loop. -/
theorem retry_chunkWrites_meta (c : Chunk) (attrs : List Attribution)
    (hc : c.groundingAttributions = some attrs) (hnonempty : attrs ≠ [])
    (hw : ∀ a ∈ attrs, truthy a.uri = true ∧ truthy a.title = true) :
    Retry.chunkWrites c =
      (chunkText c).toList ++
        ["\n[METADATA]" ++ "\x7b" ++ quoteStr "sources" ++ ":" ++
          fullSourcesJson (attrs.map fun a => (a.uri.getD "", a.title.getD "")) ++ "\x7d"] := by
  obtain ⟨t, g⟩ := c
  simp only at hc
  subst hc
  have hfilter := retry_filter_of_wellformed attrs hw
  have hlen : (attrs.map fun a => (a.uri.getD "", a.title.getD "")).length > 0 := by
    simpa [List.length_pos] using hnonempty
  cases t with
  | none =>
      unfold Retry.chunkWrites
      dsimp only
      congr 1
      rw [hfilter, if_pos hlen]
  | some s =>
      unfold Retry.chunkWrites
      dsimp only
      congr 1
      · unfold chunkText
        dsimp only
        by_cases hs : s = "" <;> simp [hs]
      · rw [hfilter, if_pos hlen]

end CortexLuma

namespace CortexLuma

/-- For a validated body and a cleanly ending upstream stream, the bytes the
fail-fast handler writes are exactly the chunk-loop writes. -/
theorem writesOf_streamChat_failfast (h : List Turn) (p : String) (img : Option ImageField)
    (u : List Turn → Except String UpstreamStream)
    (hh : h.length ≤ FailFast.MAX_HISTORY_LENGTH)
    (hp : p.length ≤ FailFast.MAX_TOKEN_ESTIMATE)
    (cs : List Chunk) (hu : u (FailFast.assembleContents h p img) = Except.ok ⟨cs, none⟩) :
    writesOf (FailFast.streamChat ⟨JsField.val h, JsField.val p, img⟩ u) =
      FailFast.streamWrites cs := by
  have hcond : (decide (h.length > FailFast.MAX_HISTORY_LENGTH)
      || decide (p.length > FailFast.MAX_TOKEN_ESTIMATE)) = false := by
    simp only [Bool.or_eq_false_iff, decide_eq_false_iff_not]
    exact ⟨Nat.not_lt.mpr hh, Nat.not_lt.mpr hp⟩
  unfold FailFast.streamChat
  dsimp only
  rw [if_neg (by rw [hcond]; exact Bool.false_ne_true)]
  rw [hu]
  simp only [writesOf, List.filterMap_cons]
  have hm := writesOf_map_write_append (FailFast.streamWrites cs) [Event.endStream]
  simp only [writesOf] at hm
  rw [hm]
  simp

/-- For a valid prompt, no media, and a first upstream attempt yielding a
cleanly ending stream, the bytes the retry handler writes are exactly the
chunk-loop writes. -/
theorem writesOf_streamChat_retry (rh : Option (List Turn)) (rp : String)
    (ru : Nat → Except String UpstreamStream) (hne : rp ≠ "")
    (hlen : rp.length ≤ Retry.MAX_PROMPT_LENGTH)
    (cs : List Chunk) (hru : ru 0 = Except.ok ⟨cs, none⟩) :
    writesOf (Retry.streamChat ⟨rh, some rp, none⟩ ru) = Retry.streamWrites cs := by
  unfold Retry.streamChat
  dsimp only
  rw [if_neg hne, if_neg (Nat.not_lt.mpr hlen)]
  simp only [Retry.parseBase64Image]
  rw [show Retry.MAX_RETRIES = 2 + 1 from rfl]
  rw [streamPhase_ok_step _ ru 0 2 ⟨cs, none⟩ hru]
  unfold Retry.forwardStream
  dsimp only
  simp only [writesOf, List.filterMap_cons]
  have hm := writesOf_map_write_append (Retry.streamWrites cs) [Event.endStream]
  simp only [writesOf] at hm
  rw [hm]
  simp

/-- Claim C1: for every chunk sequence consumed by the stream-chat handler
(fail-fast and retry revisions), the byte sequence written to the client is
the in-order concatenation of the chunks non-empty texts, each forwarded
verbatim.  When no chunk carries grounding metadata the output holds no
marker; when grounding sources (well-formed uri and title pairs) are carried
only by the final chunk the output is the concatenated text followed by
exactly one marker line holding those sources. -/
theorem stream_relay_forwarding
    (h : List Turn) (p : String)
    (u : List Turn → Except String UpstreamStream) (ru : Nat → Except String UpstreamStream)
    (hh : h.length ≤ FailFast.MAX_HISTORY_LENGTH)
    (hp : p.length ≤ FailFast.MAX_TOKEN_ESTIMATE)
    (hne : p ≠ "") (hpr : p.length ≤ Retry.MAX_PROMPT_LENGTH)
    (cs : List Chunk)
    (hu : u (FailFast.assembleContents h p none) = Except.ok ⟨cs, none⟩)
    (hru : ru 0 = Except.ok ⟨cs, none⟩) :
    ((∀ c ∈ cs, c.groundingAttributions = none) →
        writesOf (FailFast.streamChat ⟨JsField.val h, JsField.val p, none⟩ u) = textsOf cs
      ∧ writesOf (Retry.streamChat ⟨some h, some p, none⟩ ru) = textsOf cs)
  ∧ (∀ init fin attrs, cs = init ++ [fin] →
      (∀ c ∈ init, c.groundingAttributions = none) →
      fin.groundingAttributions = some attrs → attrs ≠ [] →
      (∀ a ∈ attrs, truthy a.uri = true ∧ truthy a.title = true) →
        writesOf (FailFast.streamChat ⟨JsField.val h, JsField.val p, none⟩ u) =
            textsOf cs ++
              ["\n--SOURCES--\n" ++ sourcesArrayJson (attrs.map fun a => (a.uri, a.title))]
          ∧ writesOf (Retry.streamChat ⟨some h, some p, none⟩ ru) =
              textsOf cs ++
                ["\n[METADATA]" ++ "\x7b" ++ quoteStr "sources" ++ ":" ++
                  fullSourcesJson (attrs.map fun a => (a.uri.getD "", a.title.getD "")) ++
                  "\x7d"]) := by
  constructor
  · intro hmeta
    constructor
    · rw [writesOf_streamChat_failfast h p none u hh hp cs hu,
        failfast_streamWrites_no_meta cs hmeta]
    · rw [writesOf_streamChat_retry (some h) p ru hne hpr cs hru,
        retry_streamWrites_no_meta cs hmeta]
  · intro init fin attrs hcs hinit hfin hnonempty hw
    subst hcs
    constructor
    · rw [writesOf_streamChat_failfast h p none u hh hp _ hu,
        failfast_streamWrites_append, failfast_streamWrites_no_meta init hinit]
      rw [show FailFast.streamWrites [fin] = FailFast.chunkWrites fin ++ [] from rfl]
      rw [failfast_chunkWrites_meta fin attrs hfin]
      rw [textsOf_append, textsOf_single]
      simp [List.append_assoc]
    · rw [writesOf_streamChat_retry (some h) p ru hne hpr _ hru,
        retry_streamWrites_append, retry_streamWrites_no_meta init hinit]
      rw [show Retry.streamWrites [fin] = Retry.chunkWrites fin ++ [] from rfl]
      rw [retry_chunkWrites_meta fin attrs hfin hnonempty hw]
      rw [textsOf_append, textsOf_single]
      simp [List.append_assoc]

/-- The spec test chunks `Hel`, `lo`, ` world` with no metadata. -/
def csHello : List Chunk :=
  [⟨some "Hel", none⟩, ⟨some "lo", none⟩, ⟨some " world", none⟩]

/-- The spec test chunks whose final chunk carries one grounding source. -/
def csMeta : List Chunk :=
  [⟨some "Hel", none⟩, ⟨some "lo", none⟩,
   ⟨some " world", some [⟨some "https://x", some "X"⟩]⟩]

/-- Witness for C1: the spec scenarios `Hel`/`lo`/` world` with no metadata
and with one grounding source on the final chunk. -/
theorem stream_relay_forwarding_witness :
    (writesOf (FailFast.streamChat ⟨JsField.val [], JsField.val "Hi", none⟩
          (fun _ => Except.ok ⟨csHello, none⟩)) = textsOf csHello
      ∧ writesOf (Retry.streamChat ⟨some [], some "Hi", none⟩
          (fun _ => Except.ok ⟨csHello, none⟩)) = textsOf csHello)
  ∧ (writesOf (FailFast.streamChat ⟨JsField.val [], JsField.val "Hi", none⟩
          (fun _ => Except.ok ⟨csMeta, none⟩)) =
        textsOf csMeta ++
          ["\n--SOURCES--\n" ++ sourcesArrayJson
            (([⟨some "https://x", some "X"⟩] : List Attribution).map fun a => (a.uri, a.title))]
      ∧ writesOf (Retry.streamChat ⟨some [], some "Hi", none⟩
          (fun _ => Except.ok ⟨csMeta, none⟩)) =
        textsOf csMeta ++
          ["\n[METADATA]" ++ "\x7b" ++ quoteStr "sources" ++ ":" ++
            fullSourcesJson (([⟨some "https://x", some "X"⟩] : List Attribution).map
              fun a => (a.uri.getD "", a.title.getD "")) ++ "\x7d"]) :=
  ⟨(stream_relay_forwarding [] "Hi" (fun _ => Except.ok ⟨csHello, none⟩)
      (fun _ => Except.ok ⟨csHello, none⟩) (by decide) (by decide) (by decide) (by decide)
      csHello rfl rfl).1 (by decide),
   (stream_relay_forwarding [] "Hi" (fun _ => Except.ok ⟨csMeta, none⟩)
      (fun _ => Except.ok ⟨csMeta, none⟩) (by decide) (by decide) (by decide) (by decide)
      csMeta rfl rfl).2
     [⟨some "Hel", none⟩, ⟨some "lo", none⟩] ⟨some " world", some [⟨some "https://x", some "X"⟩]⟩
     [⟨some "https://x", some "X"⟩] rfl (by decide) rfl (by decide) (by decide)⟩

end CortexLuma
